import Mathlib

/-!
Shallow embedding of the Vulkan RHI frame-graph executer
(`Source/RHI/FrameGraphExecuter.cpp`) and the semaphore tracker
(`Source/RHI/SemaphoreTracker.cpp`) of the o3de repository, together with
proofs about the scope-partitioning algorithm, the handler execution guard,
initialization, and the tracker counters.

All `uint32_t` arithmetic of the source is modelled on `Nat` with an
explicit reduction modulo `2 ^ 32` at every operation that can wrap.
Device indices are `int` in the source and are modelled as `Int`
(`RHI::MultiDevice::InvalidDeviceIndex` is `-1`).
-/

/-- Reduction modulo `2 ^ 32`, the wrap-around of `uint32_t` arithmetic. -/
def uint32Mod (x : Nat) : Nat := x % 4294967296

/-- AZ::DivideAndRoundUp on `uint32_t`: `(value + alignment - 1) / alignment`,
with the numerator computed in wrapping `uint32_t` arithmetic. -/
def divideAndRoundUp (a b : Nat) : Nat := uint32Mod (a + b - 1) / b

/-- RHI::HardwareQueueClass. -/
inductive HardwareQueueClass where
  | Graphics
  | Compute
  | Copy
deriving DecidableEq

/-- RHI::MultiDevice::InvalidDeviceIndex. -/
def InvalidDeviceIndex : Int := -1

/-- The attributes of an RHI scope that `FrameGraphExecuter::BeginInternal`
reads: queue class, device index, the cost estimators, the frame-graph group
id, the sizes of the wait/signal semaphore and fence lists, and the number of
swap chains to present.  List attributes are modelled by their sizes because
the algorithm only ever queries emptiness or size. -/
structure Scope where
  groupId : Nat
  hardwareQueueClass : HardwareQueueClass
  deviceIndex : Int
  estimatedItemCount : Nat
  attachmentCount : Nat
  waitSemaphoreCount : Nat
  waitFenceCount : Nat
  signalSemaphoreCount : Nat
  signalFenceCount : Nat
  swapchainCount : Nat
deriving DecidableEq

/-- The per-device `FrameGraphExecuterData` limits coming from the Vulkan
`PlatformLimitsDescriptor` (all `uint32_t`). -/
structure FrameGraphExecuterData where
  commandListCostThresholdMin : Nat
  commandListsPerScopeMax : Nat
  itemCost : Nat
  attachmentCost : Nat
  swapChainsPerCommandList : Nat
deriving DecidableEq

/-- An execute group as produced by `BeginInternal`: a Primary group holds the
ordered list of merged scopes recorded into one shared command list; a
Secondary group holds a single scope together with its number of dedicated
secondary command lists.  The device reference, name and the semaphore handle
carried by the real groups play no role in the partition and are omitted. -/
inductive ExecuteGroup where
  | primary (scopes : List Scope)
  | secondary (scope : Scope) (commandListCount : Nat)
deriving DecidableEq

/-- The mutable state of the cost-heuristic loop of `BeginInternal`:
the running merge set, its accumulators, and the groups created so far. -/
structure MergeState where
  mergedScopes : List Scope
  mergedHardwareQueueClass : HardwareQueueClass
  mergedGroupCost : Nat
  mergedSwapchainCount : Nat
  mergedDeviceIndex : Int
  groups : List ExecuteGroup

/-- The `subpassGroup` test of `BeginInternal`(both modes): the previous or
the next scope shares the frame-graph group id of the current scope. -/
def localSubpass (prev : Option Scope) (s : Scope) (next : Option Scope) : Bool :=
  (match next with
   | some n => n.groupId == s.groupId
   | none => false) ||
  (match prev with
   | some p => p.groupId == s.groupId
   | none => false)

/-- The `scopePrev` part of the `onSyncBoundaries` test: the previous scope
has signal semaphores or signal fences. -/
def hasSignals : Option Scope → Bool
  | some p => p.signalSemaphoreCount != 0 || p.signalFenceCount != 0
  | none => false

/-- `totalScopeCost` of a scope: item count times item cost plus attachment
count times attachment cost, in `uint32_t` arithmetic, with the per-device
executer data of the device of the scope. -/
def totalScopeCost (cfg : Int → FrameGraphExecuterData) (s : Scope) : Nat :=
  uint32Mod (s.estimatedItemCount * (cfg s.deviceIndex).itemCost +
    s.attachmentCount * (cfg s.deviceIndex).attachmentCost)

/-- `CommandListCostThreshold` of a scope: the maximum of the configured
minimum and the item count divided (rounding up) by the maximum number of
command lists per scope. -/
def commandListCostThreshold (cfg : Int → FrameGraphExecuterData) (s : Scope) : Nat :=
  max (cfg s.deviceIndex).commandListCostThresholdMin
    (divideAndRoundUp s.estimatedItemCount (cfg s.deviceIndex).commandListsPerScopeMax)

/-- The `flushMergedScopes` disjunction of `BeginInternal`: exceeded command
cost, exceeded swap-chain limit, hardware queue mismatch, a synchronization
boundary, device mismatch, or a subpass group. -/
def flushCond (cfg : Int → FrameGraphExecuterData) (prev : Option Scope) (s : Scope)
    (subpass : Bool) (st : MergeState) : Prop :=
  uint32Mod (st.mergedGroupCost + totalScopeCost cfg s) > commandListCostThreshold cfg s ∨
  uint32Mod (st.mergedSwapchainCount + s.swapchainCount) >
    (cfg s.deviceIndex).swapChainsPerCommandList ∨
  s.hardwareQueueClass ≠ st.mergedHardwareQueueClass ∨
  (s.waitSemaphoreCount ≠ 0 ∨ s.waitFenceCount ≠ 0 ∨ hasSignals prev = true) ∨
  st.mergedDeviceIndex ≠ s.deviceIndex ∨
  subpass = true

instance (cfg : Int → FrameGraphExecuterData) (prev : Option Scope) (s : Scope)
    (subpass : Bool) (st : MergeState) : Decidable (flushCond cfg prev s subpass st) := by
  unfold flushCond
  infer_instance

/-- Reset of the merged hardware queue class to the current scope when the
accumulated cost is zero (source comment: reset to match current scope if
empty). -/
def resetHwIfEmpty (s : Scope) (st : MergeState) : MergeState :=
  if st.mergedGroupCost = 0 then
    { st with mergedHardwareQueueClass := s.hardwareQueueClass }
  else st

/-- The flush block of `BeginInternal`: when the flush condition holds and the
merge set is nonempty, emit one Primary group over the merge set, reset the
accumulators, and point the merged queue class and device at the current
scope. -/
def flushIfNeeded (cfg : Int → FrameGraphExecuterData) (prev : Option Scope) (s : Scope)
    (subpass : Bool) (st : MergeState) : MergeState :=
  if flushCond cfg prev s subpass st ∧ st.mergedScopes ≠ [] then
    { mergedScopes := []
      mergedHardwareQueueClass := s.hardwareQueueClass
      mergedGroupCost := 0
      mergedSwapchainCount := 0
      mergedDeviceIndex := s.deviceIndex
      groups := st.groups ++ [ExecuteGroup.primary st.mergedScopes] }
  else st

/-- The merge-or-dedicate block of `BeginInternal`: a scope that is not in a
subpass group and whose cost is below the threshold is appended to the merge
set; otherwise a dedicated Secondary group with `max(cost / threshold
rounded up, 1)` command lists is created for it. -/
def mergeOrDedicate (cfg : Int → FrameGraphExecuterData) (s : Scope) (subpass : Bool)
    (st : MergeState) : MergeState :=
  if subpass = false ∧ totalScopeCost cfg s < commandListCostThreshold cfg s then
    { st with
      mergedScopes := st.mergedScopes ++ [s]
      mergedGroupCost := uint32Mod (st.mergedGroupCost + totalScopeCost cfg s)
      mergedSwapchainCount := uint32Mod (st.mergedSwapchainCount + s.swapchainCount) }
  else
    { st with
      groups := st.groups ++ [ExecuteGroup.secondary s
        (max (divideAndRoundUp (totalScopeCost cfg s) (commandListCostThreshold cfg s)) 1)] }

/-- One iteration of the cost-heuristic loop of `BeginInternal` for the scope
`s` with the given previous and next scopes. -/
def beginStep (cfg : Int → FrameGraphExecuterData) (prev : Option Scope) (s : Scope)
    (next : Option Scope) (st : MergeState) : MergeState :=
  mergeOrDedicate cfg s (localSubpass prev s next)
    (flushIfNeeded cfg prev s (localSubpass prev s next) (resetHwIfEmpty s st))

/-- The cost-heuristic loop of `BeginInternal`; after the last scope any
pending merge set is emitted as a final Primary group.  The semaphore-tracker
bookkeeping of the source mutates only the tracker collection and the handles
attached to the created groups; it does not influence the partition into
groups and is modelled with the tracker collection itself. -/
def beginLoop (cfg : Int → FrameGraphExecuterData) (prev : Option Scope) (st : MergeState) :
    List Scope → List ExecuteGroup
  | [] =>
    if st.mergedScopes = [] then st.groups
    else st.groups ++ [ExecuteGroup.primary st.mergedScopes]
  | s :: rest => beginLoop cfg (some s) (beginStep cfg prev s rest.head? st) rest

/-- The initial loop state of `BeginInternal`: queue class Graphics, zero
accumulated cost and swap-chain count, invalid merged device index, no merged
scopes and no groups. -/
def initMergeState : MergeState :=
  { mergedScopes := []
    mergedHardwareQueueClass := HardwareQueueClass.Graphics
    mergedGroupCost := 0
    mergedSwapchainCount := 0
    mergedDeviceIndex := InvalidDeviceIndex
    groups := [] }

/-- `FrameGraphExecuter::BeginInternal` in cost-heuristic mode (the branch
compiled when `AZ_FORCE_CPU_GPU_INSYNC` is not defined), as the partition of
the ordered scope list into execute groups. -/
def BeginInternal (cfg : Int → FrameGraphExecuterData) (scopes : List Scope) :
    List ExecuteGroup :=
  beginLoop cfg none initMergeState scopes

/-- The force-serial loop of `BeginInternal` (the `AZ_FORCE_CPU_GPU_INSYNC`
branch): a subpass-group scope receives a dedicated Secondary group with one
command list; any other scope is pushed onto the merge set which is
immediately moved into a Primary group (leaving the merge set empty). -/
def forceLoop (prev : Option Scope) (mergedScopes : List Scope)
    (groups : List ExecuteGroup) : List Scope → List ExecuteGroup
  | [] => groups
  | s :: rest =>
    if localSubpass prev s rest.head? = true then
      forceLoop (some s) mergedScopes (groups ++ [ExecuteGroup.secondary s 1]) rest
    else
      forceLoop (some s) [] (groups ++ [ExecuteGroup.primary (mergedScopes ++ [s])]) rest

/-- `FrameGraphExecuter::BeginInternal` in force-serial mode. -/
def BeginInternalForceSerial (scopes : List Scope) : List ExecuteGroup :=
  forceLoop none [] [] scopes

/-- The subpass flag of each scope of a list, computed with the running
previous scope exactly as the loops do. -/
def subpassFlagsAux (prev : Option Scope) : List Scope → List Bool
  | [] => []
  | s :: rest => localSubpass prev s rest.head? :: subpassFlagsAux (some s) rest

/-- The subpass flags of a scope list. -/
def subpassFlags (scopes : List Scope) : List Bool :=
  subpassFlagsAux none scopes

/-- Positional form of the subpass test: scope `i` of the list shares its
frame-graph group id with the scope at `i+1` or with the scope at `i-1`. -/
def subpassAt (l : List Scope) (i : Nat) : Bool :=
  match l[i]? with
  | none => false
  | some s =>
    (match l[i + 1]? with
     | some nxt => nxt.groupId == s.groupId
     | none => false) ||
    (match i with
     | 0 => false
     | Nat.succ j =>
       match l[j]? with
       | some p => p.groupId == s.groupId
       | none => false)

/-- The scopes covered by one execute group. -/
def scopesOfGroup : ExecuteGroup → List Scope
  | ExecuteGroup.primary l => l
  | ExecuteGroup.secondary s _ => [s]

/-- The concatenation of the scopes of a list of execute groups. -/
def groupScopes (gs : List ExecuteGroup) : List Scope :=
  (gs.map scopesOfGroup).flatten

/-- The accumulated `mergedGroupCost` of a merge set, folded in `uint32_t`
arithmetic in the append order of the loop. -/
def groupCost (cfg : Int → FrameGraphExecuterData) (l : List Scope) : Nat :=
  l.foldl (fun a x => uint32Mod (a + totalScopeCost cfg x)) 0

/-- The handler state visible to `FrameGraphExecuter::ExecuteGroupInternal`.
Modelled from the spec: the handler internals (`IsExecuted`, `End`) are
declared outside the provided sources; per the spec the handler tracks
whether it has already finalized, and `End` performs the submission (so it
sets the executed flag).  `endCount` counts the `End` invocations. -/
structure HandlerState where
  executed : Bool
  endCount : Nat
deriving DecidableEq

/-- `FrameGraphExecuter::ExecuteGroupInternal` for one call on a group of the
handler, given the completeness of the handler observed by this call: the
handler finalizes (invoking `End`) only when it has not executed yet and all
of its groups are complete. -/
def ExecuteGroupInternal (st : HandlerState) (complete : Bool) : HandlerState :=
  if st.executed = false ∧ complete = true then
    { executed := true, endCount := st.endCount + 1 }
  else st

/-- RHI::ResultCode. -/
inductive ResultCode where
  | Success
  | Fail
  | OutOfMemory
  | InvalidArgument
  | InvalidOperation
  | Unimplemented
deriving DecidableEq

/-- `FrameGraphExecuter::InitInternal`: iterate over the per-device
platform-limits descriptors; a descriptor that casts to the Vulkan
`PlatformLimitsDescriptor` (modelled as `some data`) updates the per-device
executer data, a malformed one (modelled as `none`, the failed `azrtti_cast`)
is skipped; the function returns `Success` unconditionally. -/
def InitInternal (data : Int → FrameGraphExecuterData)
    (descriptors : List (Int × Option FrameGraphExecuterData)) :
    (Int → FrameGraphExecuterData) × ResultCode :=
  (descriptors.foldl
    (fun m d =>
      match d.2 with
      | some v => fun i => if i = d.1 then v else m i
      | none => m)
    data,
   ResultCode.Success)

/-- `SemaphoreTracker`: the expected count `m_semaphoreCounter` paired with
the received count `m_signalledSemaphoreCounter` (both `int`). -/
structure SemaphoreTracker where
  semaphoreCounter : Int
  signalledSemaphoreCounter : Int
deriving DecidableEq

/-- The constructor `SemaphoreTracker(initialNumberOfSemaphores)`.
Modelled from the spec: the member initializer of the received count lives in
the header `SemaphoreTracker.h`, which is not among the provided sources; per
the spec a fresh tracker has received no signals. -/
def SemaphoreTracker.new (initialNumberOfSemaphores : Int) : SemaphoreTracker :=
  { semaphoreCounter := initialNumberOfSemaphores, signalledSemaphoreCounter := 0 }

/-- `SemaphoreTracker::AddSemaphores`. -/
def SemaphoreTracker.AddSemaphores (t : SemaphoreTracker) (numSemaphores : Int) :
    SemaphoreTracker :=
  { t with semaphoreCounter := t.semaphoreCounter + numSemaphores }

/-- `SemaphoreTracker::SignalSemaphores`: add to the received count (the
notification of the waiters carries no state). -/
def SemaphoreTracker.SignalSemaphores (t : SemaphoreTracker) (numSemaphores : Int) :
    SemaphoreTracker :=
  { t with signalledSemaphoreCounter := t.signalledSemaphoreCounter + numSemaphores }

/-- The wait predicate of `SemaphoreTracker::WaitForSignalAllSemaphores`:
the condition under which the blocked wait returns. -/
def SemaphoreTracker.waitReturns (t : SemaphoreTracker) : Bool :=
  t.signalledSemaphoreCounter == t.semaphoreCounter

/-- `SemaphoreTrackerCollection`: the ordered tracker list plus the running
semaphore count.  Modelled from the spec for the member initializers (the
header is not among the provided sources): a fresh collection holds no
trackers and a zero running count. -/
structure SemaphoreTrackerCollection where
  trackers : List SemaphoreTracker
  semaphoreCount : Int
deriving DecidableEq

/-- `SemaphoreTrackerCollection::AddSemaphores`: adds to the most recently
created tracker (`m_trackers.back()`) and to the running count.  On a
collection without trackers `back()` dereferences the back of an empty
vector, which is undefined; this is modelled as `none`. -/
def SemaphoreTrackerCollection.AddSemaphores (c : SemaphoreTrackerCollection)
    (numSemaphores : Int) : Option SemaphoreTrackerCollection :=
  match c.trackers.getLast? with
  | none => none
  | some t =>
    some { trackers := c.trackers.dropLast ++ [t.AddSemaphores numSemaphores]
           semaphoreCount := c.semaphoreCount + numSemaphores }

/-- `SemaphoreTrackerHandle`: the snapshot count of trackers that a signal
through the handle fans out to (the intrusive pointer to the collection is
implicit in the shallow embedding). -/
structure SemaphoreTrackerHandle where
  countTrackers : Nat
deriving DecidableEq

/-- `SemaphoreTrackerCollection::CreateHandle`: append a fresh tracker seeded
with the running count and return the handle snapshotting the new number of
trackers. -/
def SemaphoreTrackerCollection.CreateHandle (c : SemaphoreTrackerCollection) :
    SemaphoreTrackerCollection × SemaphoreTrackerHandle :=
  ({ trackers := c.trackers ++ [SemaphoreTracker.new c.semaphoreCount]
     semaphoreCount := c.semaphoreCount },
   { countTrackers := c.trackers.length + 1 })

/-- `SemaphoreTrackerCollection::SignalSemaphores`: signal the first
`countTrackers` trackers. -/
def SemaphoreTrackerCollection.SignalSemaphores (c : SemaphoreTrackerCollection)
    (countTrackers : Nat) (numSemaphores : Int) : SemaphoreTrackerCollection :=
  { c with trackers :=
      (c.trackers.take countTrackers).map (fun t => t.SignalSemaphores numSemaphores) ++
      c.trackers.drop countTrackers }

/-- Configuration for the C1 witness run. -/
def c1Cfg : Int → FrameGraphExecuterData := fun _ =>
  { commandListCostThresholdMin := 10
    commandListsPerScopeMax := 1
    itemCost := 1
    attachmentCost := 0
    swapChainsPerCommandList := 10 }

/-- A plain mergeable scope for the C1 witness run. -/
def c1Scope : Scope :=
  { groupId := 1
    hardwareQueueClass := HardwareQueueClass.Graphics
    deviceIndex := 0
    estimatedItemCount := 1
    attachmentCount := 0
    waitSemaphoreCount := 0
    waitFenceCount := 0
    signalSemaphoreCount := 0
    signalFenceCount := 0
    swapchainCount := 0 }

/-- Configuration for the C2 failing input: minimum cost threshold 10, one
command list per scope, item cost 1, no attachment cost. -/
def c2Cfg : Int → FrameGraphExecuterData := fun _ =>
  { commandListCostThresholdMin := 10
    commandListsPerScopeMax := 1
    itemCost := 1
    attachmentCost := 0
    swapChainsPerCommandList := 10 }

/-- First scope of the C2 failing input: graphics queue, cost 1. -/
def c2Scope1 : Scope :=
  { groupId := 1
    hardwareQueueClass := HardwareQueueClass.Graphics
    deviceIndex := 0
    estimatedItemCount := 1
    attachmentCount := 0
    waitSemaphoreCount := 0
    waitFenceCount := 0
    signalSemaphoreCount := 0
    signalFenceCount := 0
    swapchainCount := 0 }

/-- Second scope of the C2 failing input: graphics queue, cost 0 (no items,
no attachments). -/
def c2Scope2 : Scope :=
  { groupId := 2
    hardwareQueueClass := HardwareQueueClass.Graphics
    deviceIndex := 0
    estimatedItemCount := 0
    attachmentCount := 0
    waitSemaphoreCount := 0
    waitFenceCount := 0
    signalSemaphoreCount := 0
    signalFenceCount := 0
    swapchainCount := 0 }

/-- Third scope of the C2 failing input: compute queue, cost 1. -/
def c2Scope3 : Scope :=
  { groupId := 3
    hardwareQueueClass := HardwareQueueClass.Compute
    deviceIndex := 0
    estimatedItemCount := 1
    attachmentCount := 0
    waitSemaphoreCount := 0
    waitFenceCount := 0
    signalSemaphoreCount := 0
    signalFenceCount := 0
    swapchainCount := 0 }

/-- Configuration for the C4 example: cost threshold 20. -/
def c4Cfg : Int → FrameGraphExecuterData := fun _ =>
  { commandListCostThresholdMin := 20
    commandListsPerScopeMax := 1000
    itemCost := 1
    attachmentCost := 0
    swapChainsPerCommandList := 10 }

/-- Scope A of the C4 example: total cost 10, unique group id. -/
def c4ScopeA : Scope :=
  { groupId := 1
    hardwareQueueClass := HardwareQueueClass.Graphics
    deviceIndex := 0
    estimatedItemCount := 10
    attachmentCount := 0
    waitSemaphoreCount := 0
    waitFenceCount := 0
    signalSemaphoreCount := 0
    signalFenceCount := 0
    swapchainCount := 0 }

/-- Scope B of the C4 example: total cost 15, unique group id. -/
def c4ScopeB : Scope :=
  { groupId := 2
    hardwareQueueClass := HardwareQueueClass.Graphics
    deviceIndex := 0
    estimatedItemCount := 15
    attachmentCount := 0
    waitSemaphoreCount := 0
    waitFenceCount := 0
    signalSemaphoreCount := 0
    signalFenceCount := 0
    swapchainCount := 0 }

/-- Scope C of the C4 example: total cost 5, group id shared with no
neighboring scope. -/
def c4ScopeC : Scope :=
  { groupId := 3
    hardwareQueueClass := HardwareQueueClass.Graphics
    deviceIndex := 0
    estimatedItemCount := 5
    attachmentCount := 0
    waitSemaphoreCount := 0
    waitFenceCount := 0
    signalSemaphoreCount := 0
    signalFenceCount := 0
    swapchainCount := 0 }

/-- Configuration for the C7 counterexample: minimum cost threshold 10, ten
command lists per scope, item cost 0, attachment cost 1. -/
def c7Cfg : Int → FrameGraphExecuterData := fun _ =>
  { commandListCostThresholdMin := 10
    commandListsPerScopeMax := 10
    itemCost := 0
    attachmentCost := 1
    swapChainsPerCommandList := 10 }

/-- First scope of the C7 counterexample: 1000 estimated items (raising its
own threshold to 100) but a total cost of 90 coming from 90 attachments. -/
def c7Scope1 : Scope :=
  { groupId := 1
    hardwareQueueClass := HardwareQueueClass.Graphics
    deviceIndex := 0
    estimatedItemCount := 1000
    attachmentCount := 90
    waitSemaphoreCount := 0
    waitFenceCount := 0
    signalSemaphoreCount := 0
    signalFenceCount := 0
    swapchainCount := 0 }

/-- Second scope of the C7 counterexample: cost 0, threshold 10. -/
def c7Scope2 : Scope :=
  { groupId := 2
    hardwareQueueClass := HardwareQueueClass.Graphics
    deviceIndex := 0
    estimatedItemCount := 0
    attachmentCount := 0
    waitSemaphoreCount := 0
    waitFenceCount := 0
    signalSemaphoreCount := 0
    signalFenceCount := 0
    swapchainCount := 0 }

/-- A scope occurrence that sits at some position of the input list whose
subpass flag is false. -/
def NonSubpassPos (orig : List Scope) (x : Scope) : Prop :=
  ∃ j, orig[j]? = some x ∧ subpassAt orig j = false

/-- Configuration for the C3 witness run. -/
def c3Cfg : Int → FrameGraphExecuterData := fun _ =>
  { commandListCostThresholdMin := 10
    commandListsPerScopeMax := 1
    itemCost := 1
    attachmentCost := 0
    swapChainsPerCommandList := 10 }

/-- First scope of the C3 witness run: group id 5 shared with the next
scope. -/
def c3ScopeP : Scope :=
  { groupId := 5
    hardwareQueueClass := HardwareQueueClass.Graphics
    deviceIndex := 0
    estimatedItemCount := 1
    attachmentCount := 0
    waitSemaphoreCount := 0
    waitFenceCount := 0
    signalSemaphoreCount := 0
    signalFenceCount := 0
    swapchainCount := 0 }

/-- Second scope of the C3 witness run: group id 5 shared with the previous
scope. -/
def c3ScopeQ : Scope :=
  { groupId := 5
    hardwareQueueClass := HardwareQueueClass.Graphics
    deviceIndex := 0
    estimatedItemCount := 2
    attachmentCount := 0
    waitSemaphoreCount := 0
    waitFenceCount := 0
    signalSemaphoreCount := 0
    signalFenceCount := 0
    swapchainCount := 0 }

/-- Configuration for the C10 witness run. -/
def c10Cfg : Int → FrameGraphExecuterData := fun _ =>
  { commandListCostThresholdMin := 10
    commandListsPerScopeMax := 1
    itemCost := 1
    attachmentCost := 0
    swapChainsPerCommandList := 10 }

/-- First scope of the C10 witness run. -/
def c10Scope0 : Scope :=
  { groupId := 1
    hardwareQueueClass := HardwareQueueClass.Graphics
    deviceIndex := 0
    estimatedItemCount := 1
    attachmentCount := 0
    waitSemaphoreCount := 0
    waitFenceCount := 0
    signalSemaphoreCount := 0
    signalFenceCount := 0
    swapchainCount := 0 }

/-- Second scope of the C10 witness run: same device, same queue class, tiny
cost — everything mergeable, yet the first scope stays alone. -/
def c10Scope1 : Scope :=
  { groupId := 2
    hardwareQueueClass := HardwareQueueClass.Graphics
    deviceIndex := 0
    estimatedItemCount := 1
    attachmentCount := 0
    waitSemaphoreCount := 0
    waitFenceCount := 0
    signalSemaphoreCount := 0
    signalFenceCount := 0
    swapchainCount := 0 }

/-! ## Theorems -/

theorem groupScopes_nil : groupScopes [] = [] := rfl

theorem groupScopes_append (a b : List ExecuteGroup) :
    groupScopes (a ++ b) = groupScopes a ++ groupScopes b := by
  simp [groupScopes]

theorem groupScopes_primary (l : List Scope) :
    groupScopes [ExecuteGroup.primary l] = l := by
  simp [groupScopes, scopesOfGroup]

theorem groupScopes_secondary (s : Scope) (n : Nat) :
    groupScopes [ExecuteGroup.secondary s n] = [s] := by
  simp [groupScopes, scopesOfGroup]

theorem groupCost_nil (cfg : Int → FrameGraphExecuterData) : groupCost cfg [] = 0 := rfl

theorem groupCost_concat (cfg : Int → FrameGraphExecuterData) (l : List Scope) (s : Scope) :
    groupCost cfg (l ++ [s]) = uint32Mod (groupCost cfg l + totalScopeCost cfg s) := by
  simp [groupCost, List.foldl_append]

theorem totalScopeCost_lt (cfg : Int → FrameGraphExecuterData) (s : Scope) :
    totalScopeCost cfg s < 4294967296 := by
  unfold totalScopeCost uint32Mod
  omega

theorem resetHw_mergedScopes (s : Scope) (st : MergeState) :
    (resetHwIfEmpty s st).mergedScopes = st.mergedScopes := by
  unfold resetHwIfEmpty; split <;> rfl

theorem resetHw_mergedGroupCost (s : Scope) (st : MergeState) :
    (resetHwIfEmpty s st).mergedGroupCost = st.mergedGroupCost := by
  unfold resetHwIfEmpty; split <;> rfl

theorem resetHw_mergedDeviceIndex (s : Scope) (st : MergeState) :
    (resetHwIfEmpty s st).mergedDeviceIndex = st.mergedDeviceIndex := by
  unfold resetHwIfEmpty; split <;> rfl

theorem resetHw_groups (s : Scope) (st : MergeState) :
    (resetHwIfEmpty s st).groups = st.groups := by
  unfold resetHwIfEmpty; split <;> rfl

theorem flushIfNeeded_eq (cfg : Int → FrameGraphExecuterData) (prev : Option Scope)
    (s : Scope) (subpass : Bool) (st : MergeState) :
    (flushIfNeeded cfg prev s subpass st = st ∧
      (¬ flushCond cfg prev s subpass st ∨ st.mergedScopes = [])) ∨
    (flushIfNeeded cfg prev s subpass st =
      { mergedScopes := []
        mergedHardwareQueueClass := s.hardwareQueueClass
        mergedGroupCost := 0
        mergedSwapchainCount := 0
        mergedDeviceIndex := s.deviceIndex
        groups := st.groups ++ [ExecuteGroup.primary st.mergedScopes] } ∧
      st.mergedScopes ≠ []) := by
  unfold flushIfNeeded
  split
  case isTrue h => exact Or.inr ⟨rfl, h.2⟩
  case isFalse h =>
    refine Or.inl ⟨rfl, ?_⟩
    rcases not_and_or.mp h with h1 | h2
    · exact Or.inl h1
    · exact Or.inr (not_not.mp h2)

theorem mergeOrDedicate_eq (cfg : Int → FrameGraphExecuterData) (s : Scope)
    (subpass : Bool) (st : MergeState) :
    (mergeOrDedicate cfg s subpass st =
      { st with
        mergedScopes := st.mergedScopes ++ [s]
        mergedGroupCost := uint32Mod (st.mergedGroupCost + totalScopeCost cfg s)
        mergedSwapchainCount := uint32Mod (st.mergedSwapchainCount + s.swapchainCount) } ∧
      subpass = false ∧ totalScopeCost cfg s < commandListCostThreshold cfg s) ∨
    (mergeOrDedicate cfg s subpass st =
      { st with
        groups := st.groups ++ [ExecuteGroup.secondary s
          (max (divideAndRoundUp (totalScopeCost cfg s) (commandListCostThreshold cfg s)) 1)] } ∧
      ¬ (subpass = false ∧ totalScopeCost cfg s < commandListCostThreshold cfg s)) := by
  unfold mergeOrDedicate
  split
  case isTrue h => exact Or.inl ⟨rfl, h⟩
  case isFalse h => exact Or.inr ⟨rfl, h⟩

theorem beginStep_groups_extend (cfg : Int → FrameGraphExecuterData) (prev : Option Scope)
    (s : Scope) (next : Option Scope) (st : MergeState) :
    ∃ t, (beginStep cfg prev s next st).groups = st.groups ++ t := by
  unfold beginStep
  rcases flushIfNeeded_eq cfg prev s (localSubpass prev s next) (resetHwIfEmpty s st) with
    ⟨hf, _⟩ | ⟨hf, _⟩ <;>
  rcases mergeOrDedicate_eq cfg s (localSubpass prev s next)
      (flushIfNeeded cfg prev s (localSubpass prev s next) (resetHwIfEmpty s st)) with
    ⟨hm, _⟩ | ⟨hm, _⟩ <;>
  rw [hm, hf] <;>
  simp [resetHw_groups, resetHw_mergedScopes]

theorem beginLoop_groups_extend (cfg : Int → FrameGraphExecuterData) :
    ∀ (rest : List Scope) (prev : Option Scope) (st : MergeState),
    ∃ t, beginLoop cfg prev st rest = st.groups ++ t := by
  intro rest
  induction rest with
  | nil =>
    intro prev st
    unfold beginLoop
    split
    · exact ⟨[], by simp⟩
    · exact ⟨[ExecuteGroup.primary st.mergedScopes], rfl⟩
  | cons s rest ih =>
    intro prev st
    obtain ⟨t1, h1⟩ := beginStep_groups_extend cfg prev s rest.head? st
    obtain ⟨t2, h2⟩ := ih (some s) (beginStep cfg prev s rest.head? st)
    exact ⟨t1 ++ t2, by
      show beginLoop cfg (some s) (beginStep cfg prev s rest.head? st) rest = _
      rw [h2, h1, List.append_assoc]⟩

theorem mem_beginLoop_of_mem_groups (cfg : Int → FrameGraphExecuterData)
    (prev : Option Scope) (st : MergeState) (rest : List Scope) (g : ExecuteGroup)
    (h : g ∈ st.groups) : g ∈ beginLoop cfg prev st rest := by
  obtain ⟨t, ht⟩ := beginLoop_groups_extend cfg rest prev st
  rw [ht]
  exact List.mem_append_left _ h

theorem beginStep_scopes_perm (cfg : Int → FrameGraphExecuterData) (prev : Option Scope)
    (s : Scope) (next : Option Scope) (st : MergeState) :
    List.Perm
      (groupScopes (beginStep cfg prev s next st).groups ++
        (beginStep cfg prev s next st).mergedScopes)
      ((groupScopes st.groups ++ st.mergedScopes) ++ [s]) := by
  unfold beginStep
  rcases flushIfNeeded_eq cfg prev s (localSubpass prev s next) (resetHwIfEmpty s st) with
    ⟨hf, _⟩ | ⟨hf, _⟩ <;>
  rcases mergeOrDedicate_eq cfg s (localSubpass prev s next)
      (flushIfNeeded cfg prev s (localSubpass prev s next) (resetHwIfEmpty s st)) with
    ⟨hm, _⟩ | ⟨hm, _⟩ <;>
  rw [hm, hf] <;>
  simp only [resetHw_groups, resetHw_mergedScopes, groupScopes_append, groupScopes_primary,
    groupScopes_secondary, List.append_assoc, List.append_nil, List.nil_append,
    List.singleton_append]
  · exact List.Perm.refl _
  · have h1 : List.Perm ([s] ++ st.mergedScopes) (st.mergedScopes ++ [s]) :=
      List.perm_append_comm
    have h2 := List.Perm.append_left (groupScopes st.groups) h1
    simpa using h2
  · exact List.Perm.refl _
  · exact List.Perm.refl _

theorem beginLoop_scopes_perm (cfg : Int → FrameGraphExecuterData) :
    ∀ (rest : List Scope) (prev : Option Scope) (st : MergeState),
    List.Perm (groupScopes (beginLoop cfg prev st rest))
      (groupScopes st.groups ++ st.mergedScopes ++ rest) := by
  intro rest
  induction rest with
  | nil =>
    intro prev st
    unfold beginLoop
    split
    case isTrue h => simp [h]
    case isFalse h => simp [groupScopes_append, groupScopes_primary]
  | cons s rest ih =>
    intro prev st
    have hstep := beginStep_scopes_perm cfg prev s rest.head? st
    have hrec := ih (some s) (beginStep cfg prev s rest.head? st)
    have h2 := List.Perm.append_right rest hstep
    have h3 : List.Perm (groupScopes (beginLoop cfg prev st (s :: rest)))
        (((groupScopes st.groups ++ st.mergedScopes) ++ [s]) ++ rest) := by
      refine List.Perm.trans ?_ h2
      simpa [List.append_assoc] using hrec
    simpa [List.append_assoc] using h3

theorem beginStep_sublist (cfg : Int → FrameGraphExecuterData) (prev : Option Scope)
    (s : Scope) (next : Option Scope) (st : MergeState) (done : List Scope)
    (hp : List.Sublist st.mergedScopes done)
    (hg : ∀ l, ExecuteGroup.primary l ∈ st.groups → List.Sublist l done) :
    List.Sublist (beginStep cfg prev s next st).mergedScopes (done ++ [s]) ∧
    (∀ l, ExecuteGroup.primary l ∈ (beginStep cfg prev s next st).groups →
      List.Sublist l (done ++ [s])) := by
  have hdone : List.Sublist done (done ++ [s]) := List.sublist_append_left done [s]
  have hgrps : ∀ l, ExecuteGroup.primary l ∈
      (flushIfNeeded cfg prev s (localSubpass prev s next) (resetHwIfEmpty s st)).groups →
      List.Sublist l (done ++ [s]) := by
    rcases flushIfNeeded_eq cfg prev s (localSubpass prev s next) (resetHwIfEmpty s st) with
      ⟨hf, _⟩ | ⟨hf, _⟩ <;> rw [hf] <;> intro l hl
    · exact List.Sublist.trans (hg l (by simpa [resetHw_groups] using hl)) hdone
    · simp only [resetHw_groups, resetHw_mergedScopes] at hl
      rcases List.mem_append.mp hl with h | h
      · exact List.Sublist.trans (hg l h) hdone
      · simp only [List.mem_singleton, ExecuteGroup.primary.injEq] at h
        cases h
        exact List.Sublist.trans hp hdone
  have hpend : List.Sublist
      (flushIfNeeded cfg prev s (localSubpass prev s next) (resetHwIfEmpty s st)).mergedScopes
      done := by
    rcases flushIfNeeded_eq cfg prev s (localSubpass prev s next) (resetHwIfEmpty s st) with
      ⟨hf, _⟩ | ⟨hf, _⟩ <;> rw [hf]
    · simpa [resetHw_mergedScopes] using hp
    · simp
  unfold beginStep
  rcases mergeOrDedicate_eq cfg s (localSubpass prev s next)
      (flushIfNeeded cfg prev s (localSubpass prev s next) (resetHwIfEmpty s st)) with
    ⟨hm, _⟩ | ⟨hm, _⟩ <;> rw [hm] <;> constructor
  · exact List.Sublist.append hpend (List.Sublist.refl [s])
  · intro l hl
    exact hgrps l hl
  · exact List.Sublist.trans hpend hdone
  · intro l hl
    simp only [] at hl
    rcases List.mem_append.mp hl with h | h
    · exact hgrps l h
    · simp at h

theorem beginLoop_sublist (cfg : Int → FrameGraphExecuterData) :
    ∀ (rest : List Scope) (prev : Option Scope) (st : MergeState) (done : List Scope),
    List.Sublist st.mergedScopes done →
    (∀ l, ExecuteGroup.primary l ∈ st.groups → List.Sublist l done) →
    ∀ l, ExecuteGroup.primary l ∈ beginLoop cfg prev st rest →
      List.Sublist l (done ++ rest) := by
  intro rest
  induction rest with
  | nil =>
    intro prev st done hp hg l hl
    rw [List.append_nil]
    unfold beginLoop at hl
    split at hl
    · exact hg l hl
    · rcases List.mem_append.mp hl with h | h
      · exact hg l h
      · simp only [List.mem_singleton] at h
        cases h
        exact hp
  | cons s rest ih =>
    intro prev st done hp hg l hl
    have hstep := beginStep_sublist cfg prev s rest.head? st done hp hg
    have h := ih (some s) (beginStep cfg prev s rest.head? st) (done ++ [s])
      hstep.1 hstep.2 l hl
    simpa [List.append_assoc] using h

/-- C1: for every ordered scope list given to `BeginInternal` in
cost-heuristic mode, the execute groups produced form an exact partition of
the input scopes: the concatenation of the scopes of all groups (the merged
scope list of a Primary group, the single scope of a Secondary group) is a
permutation of the input list, so every scope occurrence appears in exactly
one execute group; and the scope list of every Primary group is a sublist of
the input, so within each merged Primary group the scopes appear in their
original input order. -/
theorem beginInternal_partition (cfg : Int → FrameGraphExecuterData)
    (scopes : List Scope) :
    List.Perm (groupScopes (BeginInternal cfg scopes)) scopes ∧
    ∀ l, ExecuteGroup.primary l ∈ BeginInternal cfg scopes → List.Sublist l scopes := by
  constructor
  · have h := beginLoop_scopes_perm cfg scopes none initMergeState
    simpa [BeginInternal, initMergeState, groupScopes_nil] using h
  · intro l hl
    have h := beginLoop_sublist cfg scopes none initMergeState []
      (by simp [initMergeState]) (by simp [initMergeState]) l hl
    simpa using h

/-- Witness for C1 at a concrete run: the single-scope input yields the
single Primary group over it, and the theorem applies to it. -/
theorem beginInternal_partition_witness :
    ExecuteGroup.primary [c1Scope] ∈ BeginInternal c1Cfg [c1Scope] ∧
    List.Sublist [c1Scope] [c1Scope] ∧
    List.Perm (groupScopes (BeginInternal c1Cfg [c1Scope])) [c1Scope] :=
  ⟨by decide, (beginInternal_partition c1Cfg [c1Scope]).2 [c1Scope] (by decide),
   (beginInternal_partition c1Cfg [c1Scope]).1⟩

/-- C2, evaluation at the failing input: processing the three scopes
graphics(cost 1), graphics(cost 0), compute(cost 1) in cost-heuristic mode
places the zero-cost graphics scope and the compute scope in the same
Primary execute group, although their hardware-queue classes differ.  The
queue-class guard fails because the merged queue class is reset to the
current scope whenever the accumulated cost is zero (the source comment says
"if empty", but a merged zero-cost scope leaves the accumulated cost at
zero), so the mismatch test compares the compute scope against itself. -/
theorem c2_failing_input_eval :
    BeginInternal c2Cfg [c2Scope1, c2Scope2, c2Scope3] =
      [ExecuteGroup.primary [c2Scope1], ExecuteGroup.primary [c2Scope2, c2Scope3]] ∧
    c2Scope2.hardwareQueueClass ≠ c2Scope3.hardwareQueueClass := by
  decide

/-- Counterexample to C4: on the stated input the partitioning produces two
execute groups, not the claimed three (Primary A, Primary B, Secondary C).
Since the group id of C is shared with no neighboring scope, C is not a
subpass group; its cost 5 fits the threshold 20 next to the cost 15 of B
(15 + 5 = 20 does not exceed 20), so C is merged with B. -/
theorem c4_counterexample :
    (BeginInternal c4Cfg [c4ScopeA, c4ScopeB, c4ScopeC]).length = 2 := by
  decide

/-- C4 as amended: with threshold 20 the three scopes A(cost 10), B(cost 15),
C(cost 5, group id shared with no neighbor) are partitioned into exactly the
two Primary groups {A} and {B, C}: A is flushed alone when B arrives
(10 + 15 = 25 exceeds 20), and C merges with B because 15 + 5 = 20 does not
exceed the threshold and C is not a subpass group. -/
theorem c4_amended_eval :
    BeginInternal c4Cfg [c4ScopeA, c4ScopeB, c4ScopeC] =
      [ExecuteGroup.primary [c4ScopeA], ExecuteGroup.primary [c4ScopeB, c4ScopeC]] := by
  decide

/-- Counterexample to C9 at a concrete input: for the descriptor list holding
one malformed platform-limits descriptor (the failed `azrtti_cast`, modelled
as `none`), `InitInternal` still returns `Success`; no failure result code is
ever surfaced. -/
theorem c9_counterexample :
    (InitInternal
      (fun _ =>
        { commandListCostThresholdMin := 0
          commandListsPerScopeMax := 0
          itemCost := 0
          attachmentCost := 0
          swapChainsPerCommandList := 0 })
      [((0 : Int), none)]).2 = ResultCode.Success := rfl

/-- C9 as amended: `InitInternal` ignores malformed platform-limits
descriptors (they are skipped by the cast check) and returns `Success` for
every input; initialization of the Vulkan frame-graph executer never surfaces
a failure result code. -/
theorem initInternal_always_success (data : Int → FrameGraphExecuterData)
    (descriptors : List (Int × Option FrameGraphExecuterData)) :
    (InitInternal data descriptors).2 = ResultCode.Success := rfl

theorem forceLoop_eq (f : Scope × Bool → ExecuteGroup)
    (hf : f = fun p => if p.2 then ExecuteGroup.secondary p.1 1
      else ExecuteGroup.primary [p.1]) :
    ∀ (l : List Scope) (prev : Option Scope) (groups : List ExecuteGroup),
    forceLoop prev [] groups l = groups ++ (l.zip (subpassFlagsAux prev l)).map f := by
  intro l
  induction l with
  | nil =>
    intro prev groups
    simp [forceLoop, subpassFlagsAux]
  | cons s rest ih =>
    intro prev groups
    by_cases h : localSubpass prev s rest.head? = true
    · rw [show forceLoop prev [] groups (s :: rest) =
          forceLoop (some s) [] (groups ++ [ExecuteGroup.secondary s 1]) rest by
            simp [forceLoop, h],
        ih (some s) (groups ++ [ExecuteGroup.secondary s 1])]
      simp [subpassFlagsAux, h, hf]
    · rw [show forceLoop prev [] groups (s :: rest) =
          forceLoop (some s) [] (groups ++ [ExecuteGroup.primary ([] ++ [s])]) rest by
            simp [forceLoop, h],
        ih (some s) (groups ++ [ExecuteGroup.primary ([] ++ [s])])]
      simp only [Bool.not_eq_true] at h
      simp [subpassFlagsAux, h, hf]

/-- C6: in force-serial mode every scope yields exactly one execute group
holding exactly that one scope, in input order: a scope whose subpass flag is
set (it shares its group id with the previous or next scope) yields a
dedicated Secondary group with exactly one command buffer, and every other
scope yields a Primary group holding only that scope — so every produced
group contains exactly one scope and no two scopes ever share a command
buffer. -/
theorem beginInternalForceSerial_singletons (scopes : List Scope) :
    BeginInternalForceSerial scopes =
      (scopes.zip (subpassFlags scopes)).map
        (fun p => if p.2 then ExecuteGroup.secondary p.1 1
          else ExecuteGroup.primary [p.1]) := by
  have h := forceLoop_eq
    (fun p => if p.2 then ExecuteGroup.secondary p.1 1 else ExecuteGroup.primary [p.1])
    rfl scopes none []
  simpa [BeginInternalForceSerial, subpassFlags] using h

theorem executeGroup_absorb (calls : List Bool) :
    ∀ k, calls.foldl ExecuteGroupInternal { executed := true, endCount := k } =
      { executed := true, endCount := k } := by
  induction calls with
  | nil => intro k; rfl
  | cons b rest ih =>
    intro k
    have hstep : ExecuteGroupInternal { executed := true, endCount := k } b =
        { executed := true, endCount := k } := by
      simp [ExecuteGroupInternal]
    simp only [List.foldl_cons, hstep]
    exact ih k

theorem executeGroup_foldl_char (calls : List Bool) :
    ∀ k, calls.foldl ExecuteGroupInternal { executed := false, endCount := k } =
      if calls.any (fun b => b) then { executed := true, endCount := k + 1 }
      else { executed := false, endCount := k } := by
  induction calls with
  | nil => intro k; rfl
  | cons b rest ih =>
    intro k
    cases b with
    | true =>
      have hstep : ExecuteGroupInternal { executed := false, endCount := k } true =
          { executed := true, endCount := k + 1 } := by
        simp [ExecuteGroupInternal]
      simp only [List.foldl_cons, hstep, executeGroup_absorb, List.any_cons]
      simp
    | false =>
      have hstep : ExecuteGroupInternal { executed := false, endCount := k } false =
          { executed := false, endCount := k } := by
        simp [ExecuteGroupInternal]
      simp only [List.foldl_cons, hstep, List.any_cons]
      simpa using ih k

/-- C8: over every (sequentially interleaved) sequence of `ExecuteGroup`
calls on groups of one handler, each call observing whether the handler is
complete, `End` is invoked at most once — the not-yet-executed and complete
check makes the first call that observes completeness finalize the handler
and every later call skip it — and as soon as some call observes the handler
complete, exactly one `End` invocation happens. -/
theorem executeGroupInternal_end_once (calls : List Bool) :
    (calls.foldl ExecuteGroupInternal { executed := false, endCount := 0 }).endCount ≤ 1 ∧
    (calls.any (fun b => b) = true →
      (calls.foldl ExecuteGroupInternal { executed := false, endCount := 0 }).endCount = 1) := by
  rw [executeGroup_foldl_char calls 0]
  by_cases h : calls.any (fun b => b) = true
  · simp [h]
  · simp only [Bool.not_eq_true] at h
    simp [h]

/-- Witness for C8 at a concrete call sequence: two calls observe the handler
complete, only the first invokes `End`. -/
theorem executeGroupInternal_end_once_witness :
    ([false, true, true].any (fun b => b) = true) ∧
    (([false, true, true].foldl ExecuteGroupInternal
      { executed := false, endCount := 0 }).endCount = 1) :=
  ⟨by decide, (executeGroupInternal_end_once [false, true, true]).2 (by decide)⟩

theorem signal_foldl (l : List Int) :
    ∀ t : SemaphoreTracker,
    (l.foldl SemaphoreTracker.SignalSemaphores t).semaphoreCounter = t.semaphoreCounter ∧
    (l.foldl SemaphoreTracker.SignalSemaphores t).signalledSemaphoreCounter =
      t.signalledSemaphoreCounter + l.sum := by
  induction l with
  | nil => intro t; simp
  | cons a rest ih =>
    intro t
    have h := ih (t.SignalSemaphores a)
    simp only [List.foldl_cons, List.sum_cons]
    refine ⟨h.1, ?_⟩
    rw [h.2]
    simp [SemaphoreTracker.SignalSemaphores]
    ring

/-- Counterexample to C5: on a fresh collection, before any tracker has been
created, `AddSemaphores` dereferences `m_trackers.back()` of the empty
tracker list — undefined behaviour, modelled as `none` — so it cannot raise
the expected count of any subsequently created tracker. -/
theorem collection_addSemaphores_empty :
    SemaphoreTrackerCollection.AddSemaphores { trackers := [], semaphoreCount := 0 } 1 =
      none := rfl

/-- C5 as amended: once at least one tracker exists in the collection,
`AddSemaphores k` succeeds and raises the running count by `k`, so the next
tracker created by `CreateHandle` is seeded with an expected count raised by
`k`; and the wait predicate of `WaitForSignalAllSemaphores` on that tracker
holds only when the cumulative amounts passed to `SignalSemaphores` sum to
exactly its expected count. -/
theorem semaphoreTracker_correct (c : SemaphoreTrackerCollection)
    (hne : c.trackers ≠ []) (k : Int) (l : List Int) :
    ∃ c2, SemaphoreTrackerCollection.AddSemaphores c k = some c2 ∧
      c2.semaphoreCount = c.semaphoreCount + k ∧
      (c2.CreateHandle.1.trackers.getLast? =
        some (SemaphoreTracker.new (c.semaphoreCount + k))) ∧
      ((l.foldl SemaphoreTracker.SignalSemaphores
          (SemaphoreTracker.new (c.semaphoreCount + k))).waitReturns = true →
        l.sum = c.semaphoreCount + k) := by
  rcases ht : c.trackers.getLast? with _ | t
  · exact absurd (List.getLast?_eq_none_iff.mp ht) hne
  · refine ⟨{ trackers := c.trackers.dropLast ++ [t.AddSemaphores k]
              semaphoreCount := c.semaphoreCount + k },
      ?_, rfl, ?_, ?_⟩
    · unfold SemaphoreTrackerCollection.AddSemaphores
      rw [ht]
    · unfold SemaphoreTrackerCollection.CreateHandle
      simp [List.getLast?_concat]
    · intro hw
      have hs := signal_foldl l (SemaphoreTracker.new (c.semaphoreCount + k))
      unfold SemaphoreTracker.waitReturns at hw
      rw [hs.1, hs.2] at hw
      have := beq_iff_eq.mp hw
      simp [SemaphoreTracker.new] at this
      omega

/-- Witness for C5 at a concrete collection with one tracker, adding 2
semaphores and signalling 2. -/
theorem semaphoreTracker_correct_witness :
    (SemaphoreTrackerCollection.mk [SemaphoreTracker.new 0] 0).trackers ≠ [] ∧
    (∃ c2, SemaphoreTrackerCollection.AddSemaphores
        (SemaphoreTrackerCollection.mk [SemaphoreTracker.new 0] 0) 2 = some c2 ∧
      c2.semaphoreCount = (0 : Int) + 2 ∧
      (c2.CreateHandle.1.trackers.getLast? = some (SemaphoreTracker.new ((0 : Int) + 2))) ∧
      (([(2 : Int)].foldl SemaphoreTracker.SignalSemaphores
          (SemaphoreTracker.new ((0 : Int) + 2))).waitReturns = true →
        [(2 : Int)].sum = (0 : Int) + 2)) :=
  ⟨by decide, semaphoreTracker_correct (SemaphoreTrackerCollection.mk [SemaphoreTracker.new 0] 0)
    (by decide) 2 [2]⟩

theorem beginStep_cost_inv (cfg : Int → FrameGraphExecuterData) (prev : Option Scope)
    (s : Scope) (next : Option Scope) (st : MergeState)
    (h0 : st.mergedGroupCost = groupCost cfg st.mergedScopes)
    (h1 : ∀ x, st.mergedScopes.getLast? = some x →
      groupCost cfg st.mergedScopes ≤ commandListCostThreshold cfg x)
    (h2 : ∀ l, ExecuteGroup.primary l ∈ st.groups → ∀ x, l.getLast? = some x →
      groupCost cfg l ≤ commandListCostThreshold cfg x) :
    (beginStep cfg prev s next st).mergedGroupCost =
      groupCost cfg (beginStep cfg prev s next st).mergedScopes ∧
    (∀ x, (beginStep cfg prev s next st).mergedScopes.getLast? = some x →
      groupCost cfg (beginStep cfg prev s next st).mergedScopes ≤
        commandListCostThreshold cfg x) ∧
    (∀ l, ExecuteGroup.primary l ∈ (beginStep cfg prev s next st).groups →
      ∀ x, l.getLast? = some x → groupCost cfg l ≤ commandListCostThreshold cfg x) := by
  have hflushed := flushIfNeeded_eq cfg prev s (localSubpass prev s next) (resetHwIfEmpty s st)
  -- the three invariants after the flush block, plus the fact needed for the
  -- merge branch: after the flush block either the accumulated cost is
  -- unchanged with the flush condition known false, or it is zero
  have hmid :
      ((flushIfNeeded cfg prev s (localSubpass prev s next)
          (resetHwIfEmpty s st)).mergedGroupCost =
        groupCost cfg (flushIfNeeded cfg prev s (localSubpass prev s next)
          (resetHwIfEmpty s st)).mergedScopes) ∧
      (∀ x, (flushIfNeeded cfg prev s (localSubpass prev s next)
          (resetHwIfEmpty s st)).mergedScopes.getLast? = some x →
        groupCost cfg (flushIfNeeded cfg prev s (localSubpass prev s next)
          (resetHwIfEmpty s st)).mergedScopes ≤ commandListCostThreshold cfg x) ∧
      (∀ l, ExecuteGroup.primary l ∈ (flushIfNeeded cfg prev s (localSubpass prev s next)
          (resetHwIfEmpty s st)).groups →
        ∀ x, l.getLast? = some x → groupCost cfg l ≤ commandListCostThreshold cfg x) ∧
      ((flushIfNeeded cfg prev s (localSubpass prev s next)
          (resetHwIfEmpty s st)).mergedGroupCost = 0 ∨
        ¬ uint32Mod ((flushIfNeeded cfg prev s (localSubpass prev s next)
            (resetHwIfEmpty s st)).mergedGroupCost + totalScopeCost cfg s) >
          commandListCostThreshold cfg s) := by
    rcases hflushed with ⟨hf, hside⟩ | ⟨hf, _⟩
    · rw [hf]
      simp only [resetHw_mergedGroupCost, resetHw_mergedScopes, resetHw_groups]
      refine ⟨h0, h1, h2, ?_⟩
      rcases hside with hnc | hemp
      · right
        intro hexc
        exact hnc (Or.inl (by
          simpa [resetHw_mergedGroupCost] using hexc))
      · left
        have hemp2 : st.mergedScopes = [] := by
          rw [← resetHw_mergedScopes s st]
          exact hemp
        rw [h0, hemp2]
        rfl
    · rw [hf]
      simp only [resetHw_mergedGroupCost, resetHw_mergedScopes, resetHw_groups]
      refine ⟨rfl, by simp, ?_, by simp⟩
      intro l hl x hx
      rcases List.mem_append.mp hl with h | h
      · exact h2 l h x hx
      · simp only [List.mem_singleton, ExecuteGroup.primary.injEq] at h
        cases h
        exact h1 x (by simpa [resetHw_mergedScopes] using hx)
  unfold beginStep
  rcases mergeOrDedicate_eq cfg s (localSubpass prev s next)
      (flushIfNeeded cfg prev s (localSubpass prev s next) (resetHwIfEmpty s st)) with
    ⟨hm, _, hcost⟩ | ⟨hm, _⟩ <;> rw [hm]
  · refine ⟨?_, ?_, hmid.2.2.1⟩
    · simp only [groupCost_concat]
      rw [hmid.1]
    · intro x hx
      rw [List.getLast?_concat] at hx
      cases hx
      rw [groupCost_concat, ← hmid.1]
      rcases hmid.2.2.2 with hz | hle
      · rw [hz]
        have : uint32Mod (0 + totalScopeCost cfg s) = totalScopeCost cfg s := by
          unfold uint32Mod
          have := totalScopeCost_lt cfg s
          omega
        rw [this]
        exact Nat.le_of_lt hcost
      · exact Nat.le_of_not_lt (fun hlt => hle hlt)
  · exact ⟨hmid.1, hmid.2.1, by
      intro l hl x hx
      rcases List.mem_append.mp hl with h | h
      · exact hmid.2.2.1 l h x hx
      · simp at h⟩

theorem beginLoop_cost (cfg : Int → FrameGraphExecuterData) :
    ∀ (rest : List Scope) (prev : Option Scope) (st : MergeState),
    st.mergedGroupCost = groupCost cfg st.mergedScopes →
    (∀ x, st.mergedScopes.getLast? = some x →
      groupCost cfg st.mergedScopes ≤ commandListCostThreshold cfg x) →
    (∀ l, ExecuteGroup.primary l ∈ st.groups → ∀ x, l.getLast? = some x →
      groupCost cfg l ≤ commandListCostThreshold cfg x) →
    ∀ l, ExecuteGroup.primary l ∈ beginLoop cfg prev st rest →
      ∀ x, l.getLast? = some x → groupCost cfg l ≤ commandListCostThreshold cfg x := by
  intro rest
  induction rest with
  | nil =>
    intro prev st h0 h1 h2 l hl x hx
    unfold beginLoop at hl
    split at hl
    · exact h2 l hl x hx
    · rcases List.mem_append.mp hl with h | h
      · exact h2 l h x hx
      · simp only [List.mem_singleton, ExecuteGroup.primary.injEq] at h
        cases h
        exact h1 x hx
  | cons s rest ih =>
    intro prev st h0 h1 h2 l hl x hx
    have hstep := beginStep_cost_inv cfg prev s rest.head? st h0 h1 h2
    exact ih (some s) (beginStep cfg prev s rest.head? st)
      hstep.1 hstep.2.1 hstep.2.2 l hl x hx

/-- C7 as amended: the scope list of every Primary execute group produced in
cost-heuristic mode carries an accumulated merged-group cost (the `uint32`
fold of `totalScopeCost` over the merged scopes, which equals the value of
the `mergedGroupCost` accumulator at the moment of flush) that does not
exceed the command-list cost threshold computed for the last scope appended
to the merge set — not necessarily the threshold computed for the scope
being processed at the moment of flush. -/
theorem beginInternal_flush_cost (cfg : Int → FrameGraphExecuterData)
    (scopes : List Scope) (l : List Scope) (x : Scope)
    (hl : ExecuteGroup.primary l ∈ BeginInternal cfg scopes)
    (hx : l.getLast? = some x) :
    groupCost cfg l ≤ commandListCostThreshold cfg x := by
  exact beginLoop_cost cfg scopes none initMergeState
    (by simp [initMergeState, groupCost_nil]) (by simp [initMergeState])
    (by simp [initMergeState]) l hl x hx

/-- Witness for C7 at a concrete run: the single-scope input yields one
Primary group whose cost respects the threshold of its last scope. -/
theorem beginInternal_flush_cost_witness :
    ExecuteGroup.primary [c1Scope] ∈ BeginInternal c1Cfg [c1Scope] ∧
    ([c1Scope].getLast? = some c1Scope) ∧
    groupCost c1Cfg [c1Scope] ≤ commandListCostThreshold c1Cfg c1Scope :=
  ⟨by decide, by decide,
   beginInternal_flush_cost c1Cfg [c1Scope] [c1Scope] c1Scope (by decide) (by decide)⟩

/-- Counterexample to C7: the first scope (cost 90, own threshold 100) is
merged, and flushed while the second scope is processed; at that moment of
flush the accumulated merged-group cost 90 exceeds both the command-list
cost threshold 10 in effect for the scope being processed and the configured
per-device minimum threshold 10. -/
theorem c7_counterexample :
    BeginInternal c7Cfg [c7Scope1, c7Scope2] =
      [ExecuteGroup.primary [c7Scope1], ExecuteGroup.primary [c7Scope2]] ∧
    groupCost c7Cfg [c7Scope1] = 90 ∧
    commandListCostThreshold c7Cfg c7Scope2 = 10 ∧
    (c7Cfg c7Scope2.deviceIndex).commandListCostThresholdMin = 10 := by
  decide

theorem getElem?_split (pre : List Scope) (s : Scope) (rest : List Scope) :
    (pre.reverse ++ s :: rest)[pre.length]? = some s := by
  rw [List.getElem?_append_right (by simp)]
  simp

theorem getElem?_split_next (pre : List Scope) (s : Scope) (rest : List Scope) :
    (pre.reverse ++ s :: rest)[pre.length + 1]? = rest.head? := by
  rw [List.getElem?_append_right (by simp)]
  simp [List.head?_eq_getElem?]

theorem subpassAt_split (pre : List Scope) (s : Scope) (rest : List Scope) :
    subpassAt (pre.reverse ++ s :: rest) pre.length =
      localSubpass pre.head? s rest.head? := by
  have hself := getElem?_split pre s rest
  have hnext := getElem?_split_next pre s rest
  cases pre with
  | nil =>
    simp only [List.reverse_nil, List.nil_append, List.length_nil] at hself hnext ⊢
    simp [subpassAt, hself, hnext, localSubpass]
  | cons p pre2 =>
    have hprev : ((p :: pre2).reverse ++ s :: rest)[pre2.length]? = some p := by
      rw [List.reverse_cons, List.append_assoc,
        List.getElem?_append_right (by simp)]
      simp
    simp only [List.length_cons, List.reverse_cons, List.append_assoc,
      List.singleton_append] at hself hnext hprev ⊢
    simp [subpassAt, hself, hnext, hprev, localSubpass]

theorem beginStep_nonsubpass (cfg : Int → FrameGraphExecuterData) (prev : Option Scope)
    (s : Scope) (next : Option Scope) (st : MergeState) (Q : Scope → Prop)
    (hs : localSubpass prev s next = false → Q s)
    (hp : ∀ x ∈ st.mergedScopes, Q x)
    (hg : ∀ l, ExecuteGroup.primary l ∈ st.groups → ∀ x ∈ l, Q x) :
    (∀ x ∈ (beginStep cfg prev s next st).mergedScopes, Q x) ∧
    (∀ l, ExecuteGroup.primary l ∈ (beginStep cfg prev s next st).groups →
      ∀ x ∈ l, Q x) := by
  have hgrps : ∀ l, ExecuteGroup.primary l ∈
      (flushIfNeeded cfg prev s (localSubpass prev s next) (resetHwIfEmpty s st)).groups →
      ∀ x ∈ l, Q x := by
    rcases flushIfNeeded_eq cfg prev s (localSubpass prev s next) (resetHwIfEmpty s st) with
      ⟨hf, _⟩ | ⟨hf, _⟩ <;> rw [hf] <;> intro l hl
    · exact hg l (by simpa [resetHw_groups] using hl)
    · simp only [resetHw_groups, resetHw_mergedScopes] at hl
      rcases List.mem_append.mp hl with h | h
      · exact hg l h
      · simp only [List.mem_singleton, ExecuteGroup.primary.injEq] at h
        cases h
        exact hp
  have hpend : ∀ x ∈
      (flushIfNeeded cfg prev s (localSubpass prev s next)
        (resetHwIfEmpty s st)).mergedScopes, Q x := by
    rcases flushIfNeeded_eq cfg prev s (localSubpass prev s next) (resetHwIfEmpty s st) with
      ⟨hf, _⟩ | ⟨hf, _⟩ <;> rw [hf]
    · simpa [resetHw_mergedScopes] using hp
    · simp
  unfold beginStep
  rcases mergeOrDedicate_eq cfg s (localSubpass prev s next)
      (flushIfNeeded cfg prev s (localSubpass prev s next) (resetHwIfEmpty s st)) with
    ⟨hm, hsub, _⟩ | ⟨hm, _⟩ <;> rw [hm]
  · refine ⟨?_, hgrps⟩
    intro x hx
    rcases List.mem_append.mp hx with h | h
    · exact hpend x h
    · simp only [List.mem_singleton] at h
      cases h
      exact hs hsub
  · refine ⟨hpend, ?_⟩
    intro l hl
    rcases List.mem_append.mp hl with h | h
    · exact hgrps l h
    · simp at h

theorem beginStep_secondary_mem (cfg : Int → FrameGraphExecuterData) (prev : Option Scope)
    (s : Scope) (next : Option Scope) (st : MergeState)
    (h : localSubpass prev s next = true) :
    ∃ n, ExecuteGroup.secondary s n ∈ (beginStep cfg prev s next st).groups := by
  unfold beginStep
  rcases mergeOrDedicate_eq cfg s (localSubpass prev s next)
      (flushIfNeeded cfg prev s (localSubpass prev s next) (resetHwIfEmpty s st)) with
    ⟨_, hsub, _⟩ | ⟨hm, _⟩
  · rw [h] at hsub
    cases hsub
  · refine ⟨max (divideAndRoundUp (totalScopeCost cfg s)
      (commandListCostThreshold cfg s)) 1, ?_⟩
    rw [hm]
    simp

theorem beginLoop_nonsubpass (cfg : Int → FrameGraphExecuterData) (orig : List Scope) :
    ∀ (rest pre : List Scope) (st : MergeState),
    orig = pre.reverse ++ rest →
    (∀ x ∈ st.mergedScopes, NonSubpassPos orig x) →
    (∀ l, ExecuteGroup.primary l ∈ st.groups → ∀ x ∈ l, NonSubpassPos orig x) →
    ∀ l, ExecuteGroup.primary l ∈ beginLoop cfg pre.head? st rest →
      ∀ x ∈ l, NonSubpassPos orig x := by
  intro rest
  induction rest with
  | nil =>
    intro pre st horig hp hg l hl x hx
    unfold beginLoop at hl
    split at hl
    · exact hg l hl x hx
    · rcases List.mem_append.mp hl with h | h
      · exact hg l h x hx
      · simp only [List.mem_singleton, ExecuteGroup.primary.injEq] at h
        cases h
        exact hp x hx
  | cons s rest ih =>
    intro pre st horig hp hg l hl x hx
    have hs : localSubpass pre.head? s rest.head? = false → NonSubpassPos orig s := by
      intro hfalse
      refine ⟨pre.length, ?_, ?_⟩
      · rw [horig]
        exact getElem?_split pre s rest
      · rw [horig, subpassAt_split]
        exact hfalse
    have hstep := beginStep_nonsubpass cfg pre.head? s rest.head? st
      (NonSubpassPos orig) hs hp hg
    have horig2 : orig = (s :: pre).reverse ++ rest := by
      rw [horig]
      simp
    exact ih (s :: pre) (beginStep cfg pre.head? s rest.head? st) horig2
      hstep.1 hstep.2 l hl x hx

theorem beginLoop_secondary (cfg : Int → FrameGraphExecuterData) (orig : List Scope) :
    ∀ (rest pre : List Scope) (st : MergeState) (i : Nat) (x : Scope),
    orig = pre.reverse ++ rest → pre.length ≤ i → orig[i]? = some x →
    subpassAt orig i = true →
    ∃ n, ExecuteGroup.secondary x n ∈ beginLoop cfg pre.head? st rest := by
  intro rest
  induction rest with
  | nil =>
    intro pre st i x horig hle hx _
    exfalso
    have : orig.length ≤ i := by
      rw [horig]
      simpa using hle
    rw [List.getElem?_eq_none this] at hx
    cases hx
  | cons s rest ih =>
    intro pre st i x horig hle hx hsub
    by_cases hi : i = pre.length
    · subst hi
      have hxs : x = s := by
        rw [horig, getElem?_split] at hx
        cases hx
        rfl
      subst hxs
      have hloc : localSubpass pre.head? x rest.head? = true := by
        rw [horig, subpassAt_split] at hsub
        exact hsub
      obtain ⟨n, hn⟩ := beginStep_secondary_mem cfg pre.head? x rest.head? st hloc
      exact ⟨n, mem_beginLoop_of_mem_groups cfg (some x)
        (beginStep cfg pre.head? x rest.head? st) rest _ hn⟩
    · have horig2 : orig = (s :: pre).reverse ++ rest := by
        rw [horig]
        simp
      have hle2 : (s :: pre).length ≤ i := by
        simp only [List.length_cons]
        omega
      exact ih (s :: pre) (beginStep cfg pre.head? s rest.head? st) i x horig2 hle2 hx hsub

theorem nodup_getElem?_inj (l : List Scope) (h : l.Nodup) {i j : Nat} {x : Scope}
    (hi : l[i]? = some x) (hj : l[j]? = some x) : i = j := by
  obtain ⟨hi1, hi2⟩ := List.getElem?_eq_some.mp hi
  obtain ⟨hj1, hj2⟩ := List.getElem?_eq_some.mp hj
  exact (List.Nodup.getElem_inj_iff h).mp (hi2.trans hj2.symm)

/-- C3: in cost-heuristic mode, every scope that shares its frame-graph group
id with the immediately previous or immediately next scope of a duplicate-free
input list is placed in a dedicated Secondary execute group holding only that
scope, and is never part of the merged scope list of any Primary group (the
flush of any pending merge set happens in the flush block, which the loop runs
before creating the Secondary group). -/
theorem beginInternal_subpass_dedicated (cfg : Int → FrameGraphExecuterData)
    (scopes : List Scope) (hnd : scopes.Nodup) (i : Nat) (x : Scope)
    (hx : scopes[i]? = some x) (hsub : subpassAt scopes i = true) :
    (∀ l, ExecuteGroup.primary l ∈ BeginInternal cfg scopes → x ∉ l) ∧
    (∃ n, ExecuteGroup.secondary x n ∈ BeginInternal cfg scopes) := by
  constructor
  · intro l hl hmem
    have hl2 : ExecuteGroup.primary l ∈
        beginLoop cfg (List.head? []) initMergeState scopes := hl
    obtain ⟨j, hj, hflag⟩ := beginLoop_nonsubpass cfg scopes scopes [] initMergeState
      (by simp) (by simp [initMergeState]) (by simp [initMergeState]) l hl2 x hmem
    have hij := nodup_getElem?_inj scopes hnd hx hj
    rw [← hij] at hflag
    rw [hflag] at hsub
    cases hsub
  · exact beginLoop_secondary cfg scopes scopes [] initMergeState i x
      (by simp) (Nat.zero_le i) hx hsub

/-- Witness for C3 at a concrete run: a two-scope subpass chain; the first
scope is placed in no Primary group and receives a Secondary group. -/
theorem beginInternal_subpass_dedicated_witness :
    ([c3ScopeP, c3ScopeQ].Nodup) ∧
    ([c3ScopeP, c3ScopeQ][0]? = some c3ScopeP) ∧
    (subpassAt [c3ScopeP, c3ScopeQ] 0 = true) ∧
    (∀ l, ExecuteGroup.primary l ∈ BeginInternal c3Cfg [c3ScopeP, c3ScopeQ] →
      c3ScopeP ∉ l) ∧
    (∃ n, ExecuteGroup.secondary c3ScopeP n ∈ BeginInternal c3Cfg [c3ScopeP, c3ScopeQ]) :=
  ⟨by decide, by decide, by decide,
   (beginInternal_subpass_dedicated c3Cfg [c3ScopeP, c3ScopeQ] (by decide) 0 c3ScopeP
     (by decide) (by decide)).1,
   (beginInternal_subpass_dedicated c3Cfg [c3ScopeP, c3ScopeQ] (by decide) 0 c3ScopeP
     (by decide) (by decide)).2⟩

theorem beginStep_flush_emits (cfg : Int → FrameGraphExecuterData) (prev : Option Scope)
    (s : Scope) (next : Option Scope) (st : MergeState)
    (hdev : st.mergedDeviceIndex ≠ s.deviceIndex) (hne : st.mergedScopes ≠ []) :
    ∃ e, (beginStep cfg prev s next st).groups =
      st.groups ++ [ExecuteGroup.primary st.mergedScopes] ++ e := by
  have hcond : flushCond cfg prev s (localSubpass prev s next) (resetHwIfEmpty s st) :=
    Or.inr (Or.inr (Or.inr (Or.inr (Or.inl (by
      rw [resetHw_mergedDeviceIndex]
      exact hdev)))))
  have hne2 : (resetHwIfEmpty s st).mergedScopes ≠ [] := by
    rw [resetHw_mergedScopes]
    exact hne
  have hf : flushIfNeeded cfg prev s (localSubpass prev s next) (resetHwIfEmpty s st) =
      { mergedScopes := []
        mergedHardwareQueueClass := s.hardwareQueueClass
        mergedGroupCost := 0
        mergedSwapchainCount := 0
        mergedDeviceIndex := s.deviceIndex
        groups := (resetHwIfEmpty s st).groups ++
          [ExecuteGroup.primary (resetHwIfEmpty s st).mergedScopes] } := by
    unfold flushIfNeeded
    rw [if_pos ⟨hcond, hne2⟩]
  unfold beginStep
  rcases mergeOrDedicate_eq cfg s (localSubpass prev s next)
      (flushIfNeeded cfg prev s (localSubpass prev s next) (resetHwIfEmpty s st)) with
    ⟨hm, _⟩ | ⟨hm, _⟩ <;> rw [hm, hf]
  · exact ⟨[], by simp [resetHw_groups, resetHw_mergedScopes]⟩
  · exact ⟨[ExecuteGroup.secondary s
      (max (divideAndRoundUp (totalScopeCost cfg s) (commandListCostThreshold cfg s)) 1)],
      by simp [resetHw_groups, resetHw_mergedScopes]⟩

theorem beginStep_first_append (cfg : Int → FrameGraphExecuterData) (s0 : Scope)
    (next : Option Scope)
    (hsub : localSubpass none s0 next = false)
    (hcost : totalScopeCost cfg s0 < commandListCostThreshold cfg s0) :
    (beginStep cfg none s0 next initMergeState).mergedScopes = [s0] ∧
    (beginStep cfg none s0 next initMergeState).mergedDeviceIndex = InvalidDeviceIndex ∧
    (beginStep cfg none s0 next initMergeState).groups = [] := by
  have h2 : flushIfNeeded cfg none s0 (localSubpass none s0 next)
      (resetHwIfEmpty s0 initMergeState) = resetHwIfEmpty s0 initMergeState := by
    unfold flushIfNeeded
    rw [if_neg (fun h => h.2 ((resetHw_mergedScopes s0 initMergeState).trans rfl))]
  unfold beginStep
  rw [h2]
  rcases mergeOrDedicate_eq cfg s0 (localSubpass none s0 next)
      (resetHwIfEmpty s0 initMergeState) with ⟨hm, _⟩ | ⟨hm, hneg⟩
  · rw [hm]
    refine ⟨?_, ?_, ?_⟩ <;>
      simp [resetHw_mergedScopes, resetHw_mergedDeviceIndex, resetHw_groups, initMergeState]
  · exact absurd ⟨hsub, hcost⟩ hneg

/-- C10 (implicit): in cost-heuristic mode, whenever the first scope of the
list is appended to the merge set (it is not a subpass group and its cost is
below its threshold) and the second scope carries a valid device index, the
merge set is flushed while the second scope is processed — the merged device
index still holds its initial invalid value, because it is only ever updated
inside the flush branch, so the device-mismatch flush condition necessarily
holds — and hence the first group produced is a Primary group holding exactly
the first scope, regardless of costs, queue classes or synchronization
state. -/
theorem beginInternal_first_scope_alone (cfg : Int → FrameGraphExecuterData)
    (s0 s1 : Scope) (rest : List Scope)
    (hdev : s1.deviceIndex ≠ InvalidDeviceIndex)
    (hsub : localSubpass none s0 (some s1) = false)
    (hcost : totalScopeCost cfg s0 < commandListCostThreshold cfg s0) :
    (BeginInternal cfg (s0 :: s1 :: rest)).head? =
      some (ExecuteGroup.primary [s0]) := by
  have hstep0 := beginStep_first_append cfg s0 (some s1) hsub hcost
  obtain ⟨e, he⟩ := beginStep_flush_emits cfg (some s0) s1 rest.head?
    (beginStep cfg none s0 (some s1) initMergeState)
    (by rw [hstep0.2.1]; exact fun h => hdev h.symm)
    (by rw [hstep0.1]; simp)
  obtain ⟨t, ht⟩ := beginLoop_groups_extend cfg rest (some s1)
    (beginStep cfg (some s0) s1 rest.head?
      (beginStep cfg none s0 (some s1) initMergeState))
  have hrun : BeginInternal cfg (s0 :: s1 :: rest) =
      beginLoop cfg (some s1)
        (beginStep cfg (some s0) s1 rest.head?
          (beginStep cfg none s0 (some s1) initMergeState)) rest := rfl
  rw [hrun, ht, he, hstep0.1, hstep0.2.2]
  simp

/-- Witness for C10 at a concrete run with two fully mergeable scopes. -/
theorem beginInternal_first_scope_alone_witness :
    (c10Scope1.deviceIndex ≠ InvalidDeviceIndex) ∧
    (localSubpass none c10Scope0 (some c10Scope1) = false) ∧
    (totalScopeCost c10Cfg c10Scope0 < commandListCostThreshold c10Cfg c10Scope0) ∧
    (BeginInternal c10Cfg [c10Scope0, c10Scope1]).head? =
      some (ExecuteGroup.primary [c10Scope0]) :=
  ⟨by decide, by decide, by decide,
   beginInternal_first_scope_alone c10Cfg c10Scope0 c10Scope1 []
     (by decide) (by decide) (by decide)⟩
